import Mathlib

/-!
Verification of the Target-Counter-Timer backend (`app.py`): the prompt
builder's phase/tone buckets, the completion-response normalization
(content / reasoning extraction, quote stripping, truncation), and the
`/quote` request handler (validation, fallback, response shape).

Python strings are embedded as `List Char`; Python's `str.strip`,
`str.lower`, `str.split` and `int()` parsing are modelled by the
executable functions below.
-/

namespace TCT

/-- A Lean string literal as a list of characters. -/
def str (s : String) : List Char := s.toList

/-- The whitespace characters stripped by Python's `str.strip()`
(ASCII subset). -/
def WS : List Char := [' ', '\t', '\n', '\r', '\x0b', '\x0c']

/-- Python `s.strip(chars)`: remove every leading and trailing character
that belongs to `cs` (each end independently). -/
def pyStripChars (cs : List Char) (l : List Char) : List Char :=
  ((l.dropWhile (fun c => decide (c ∈ cs))).reverse.dropWhile
      (fun c => decide (c ∈ cs))).reverse

/-- Python `s.strip()`: strip whitespace from both ends. -/
def pyStrip (l : List Char) : List Char := pyStripChars WS l

/-- Python `s.lower()` (ASCII case folding suffices here). -/
def pyLower (l : List Char) : List Char := l.map Char.toLower

/-- Python `sub in s`: substring containment. -/
def containsSub (sub : List Char) : List Char → Bool
  | [] => sub.isEmpty
  | c :: cs => sub.isPrefixOf (c :: cs) || containsSub sub cs

/-- The suffix after the first colon, if any. -/
def afterFirstColonAux : List Char → Option (List Char)
  | [] => none
  | c :: cs => if c = ':' then some cs else afterFirstColonAux cs

/-- Python `line.split(':', 1)[-1]`: everything after the first colon,
or the whole line when it has no colon. -/
def afterFirstColon (l : List Char) : List Char :=
  (afterFirstColonAux l).getD l

/-- Python `s.split(sep)` for a one-character separator (used with
`'\n'` in the source). Empty pieces are kept, as in Python. -/
def splitOnChar (sep : Char) : List Char → List (List Char)
  | [] => [[]]
  | c :: cs =>
    if c = sep then [] :: splitOnChar sep cs
    else
      match splitOnChar sep cs with
      | [] => [[c]]
      | h :: t => (c :: h) :: t

/-- Python `s.split(". ")`: split on the literal two-character separator
`". "`, scanning left to right without overlap, keeping empty pieces. -/
def splitDotSpace : List Char → List (List Char)
  | [] => [[]]
  | [c] => [[c]]
  | c :: c2 :: cs =>
    if c = '.' ∧ c2 = ' ' then [] :: splitDotSpace cs
    else
      match splitDotSpace (c2 :: cs) with
      | [] => [[c]]
      | h :: t => (c :: h) :: t

/-! ## Completion Client response normalization (`get_quote_from_llm`) -/

/-- The first choice's message object of the upstream response:
a `content` field and an optional `reasoning` field. -/
structure Message where
  content : List Char
  reasoning : Option (List Char)

/-- The markers scanned for in the reasoning text
(`['quote:', 'response:', 'answer:']` in the source). -/
def markers : List (List Char) := [str "quote:", str "response:", str "answer:"]

/-- Line 112 of `app.py`: does a line contain one of the markers
(checked against the lowercased line). -/
def lineMatches (line : List Char) : Bool :=
  markers.any (fun k => containsSub k (pyLower line))

/-- The first line of `lines` containing a marker (the `for ... break` loop). -/
def markerLine (lines : List (List Char)) : Option (List Char) :=
  lines.find? lineMatches

/-- The marker-based extraction step: split the reasoning on newlines,
take the first marker line's text after its first colon, stripped;
empty when no line matches. -/
def markerExtract (reasoning : List Char) : List Char :=
  match markerLine (splitOnChar '\n' reasoning) with
  | some line => pyStrip (afterFirstColon line)
  | none => []

/-- The last-sentence fallback: `reasoning.split('. ')`, last element
stripped, one trailing `'.'` removed if present. -/
def lastSentence (reasoning : List Char) : List Char :=
  let q := pyStrip ((splitDotSpace reasoning).getLastD [])
  if q.getLast? = some '.' then q.dropLast else q

/-- Lines 101-121 of `app.py`: primary extraction from `content`
(stripped); if that is empty and a `reasoning` field is present whose
lowercased text contains `"quote"`, the marker-based extraction, and when
that is empty the last-sentence fallback. -/
def extractQuote (msg : Message) : List Char :=
  let quote := pyStrip msg.content
  if quote.isEmpty then
    match msg.reasoning with
    | some reasoning =>
      if containsSub (str "quote") (pyLower reasoning) then
        let q := markerExtract reasoning
        if q.isEmpty then lastSentence reasoning else q
      else quote
    | none => quote
  else quote

/-- Line 125 of `app.py`: `quote.strip('"').strip("'").strip()`. -/
def postProcess (q : List Char) : List Char :=
  pyStrip (pyStripChars ['\''] (pyStripChars ['"'] q))

/-- Lines 127-128 of `app.py`: cap at 200 characters, appending `"..."`. -/
def truncate200 (q : List Char) : List Char :=
  if 200 < q.length then q.take 200 ++ str "..." else q

/-- Lines 101-131 of `app.py`: the whole normalization of a parsed
message; `none` models the `(None, "No quote generated in response")`
error return. -/
def normalizeResponse (msg : Message) : Option (List Char) :=
  let quote := extractQuote msg
  if quote.isEmpty then none
  else some (truncate200 (postProcess quote))

/-! ## Prompt Builder (`generate_motivational_prompt`) -/

/-- Line 18 of `app.py`: `days_completed = total_target - days_left`. -/
def days_completed (days_left total_target : ℤ) : ℤ := total_target - days_left

/-- Line 19 of `app.py`:
`progress_percentage = (days_completed / total_target) * 100`
(Python true division, modelled exactly in ℚ). -/
def progress_percentage (days_left total_target : ℤ) : ℚ :=
  ((days_completed days_left total_target : ℚ) / (total_target : ℚ)) * 100

/-- Lines 22-33 of `app.py`: the phase/tone buckets of the journey. -/
def phaseTone (days_left total_target : ℤ) : String × String :=
  let p := progress_percentage days_left total_target
  if p < 25 then ("beginning", "energetic and encouraging")
  else if p < 50 then ("early progress", "motivating and momentum-building")
  else if p < 75 then ("middle journey", "resilient and persistent")
  else ("final sprint", "determined and finish-strong")

/-- The phase computed by the Prompt Builder. -/
def phase (days_left total_target : ℤ) : String :=
  (phaseTone days_left total_target).1

/-! ## Integer parsing (`int(...)` on a query-parameter string) -/

/-- Decimal digit test. -/
def isDigitCh (c : Char) : Bool := decide ('0' ≤ c) && decide (c ≤ '9')

/-- The value of a decimal digit character. -/
def digVal (c : Char) : ℕ := c.toNat - Char.toNat '0'

/-- Digit-run parser for Python `int`: digits with single underscores
allowed between digits, at least one digit, nothing else.
`lastDigit` records whether the previous character was a digit. -/
def parseDigits : List Char → ℕ → Bool → Option ℕ
  | [], acc, lastDigit => if lastDigit then some acc else none
  | c :: cs, acc, lastDigit =>
    if isDigitCh c then parseDigits cs (acc * 10 + digVal c) true
    else if c = '_' && lastDigit then parseDigits cs acc false
    else none

/-- The body of Python `int(s)` after whitespace stripping: an optional
sign followed by a digit run. -/
def pyIntCore : List Char → Option ℤ
  | [] => none
  | c :: cs =>
    if c = '-' then (parseDigits cs 0 false).map (fun n => -(n : ℤ))
    else if c = '+' then (parseDigits cs 0 false).map (fun n => (n : ℤ))
    else (parseDigits (c :: cs) 0 false).map (fun n => (n : ℤ))

/-- Python `int(s)` for a decimal string: surrounding whitespace is
ignored, then sign and digits; `none` models `ValueError`. -/
def pyInt (l : List Char) : Option ℤ := pyIntCore (pyStrip l)

/-! ## Request Handler (`get_motivational_quote`) -/

/-- A JSON value appearing in a response body: a string, an integer, or
a (rounded) rational number. -/
inductive JVal where
  | s (v : List Char)
  | i (v : ℤ)
  | q (v : ℚ)
deriving DecidableEq

/-- An HTTP response of the `/quote` handler: a 400 validation error
with its message, or a 200 body given as its ordered field list. -/
inductive Resp where
  | badRequest (err : List Char)
  | ok (body : List (String × JVal))
deriving DecidableEq

/-- Floor of a rational number (`den` is always positive). -/
def ratFloor (q : ℚ) : ℤ := Int.fdiv q.num (q.den : ℤ)

/-- Round to the nearest integer, ties to the even integer (the
behaviour of Python's built-in `round`). -/
def roundHalfEven (x : ℚ) : ℤ :=
  let n := ratFloor x
  let r := x - (n : ℚ)
  if r < 1 / 2 then n
  else if 1 / 2 < r then n + 1
  else if n % 2 = 0 then n else n + 1

/-- Python `round(x, 1)`: round to one decimal place. -/
def pyRound1 (x : ℚ) : ℚ := ((roundHalfEven (10 * x) : ℤ) : ℚ) / 10

/-- Lines 192-198 of `app.py`: the fixed five fallback quotes. -/
def fallback_quotes : List (List Char) :=
  [str "Every day forward is a step closer to your vision becoming reality.",
   str "The entrepreneur's path isn't easy, but it's worth every challenge.",
   str "Your startup is built one decision, one day, one breakthrough at a time.",
   str "Progress isn't always visible, but persistence always pays off.",
   str "Today's small wins compound into tomorrow's big victories."]

/-- The warning string of the fallback response body. -/
def warningMsg : List Char := str "Used fallback quote due to API issues"

/-- Lines 150-221 of `app.py`: the `/quote` handler. Inputs: the two raw
query parameters (`none` = absent), the Completion Client's outcome
(`some quote` on success, `none` on any failure), and the random index
of `random.choice` over the five fallback quotes. Returns the response
together with a flag recording whether `get_quote_from_llm` was invoked. -/
def get_motivational_quote (daysLeftP totalTargetP : Option (List Char))
    (llm : Option (List Char)) (pick : Fin 5) : Resp × Bool :=
  if (daysLeftP.getD []).isEmpty || (totalTargetP.getD []).isEmpty then
    (.badRequest (str "Both daysLeft and totalTarget parameters are required"),
     false)
  else
    match pyInt (daysLeftP.getD []), pyInt (totalTargetP.getD []) with
    | some dl, some tt =>
      if dl < 0 ∨ tt ≤ 0 then
        (.badRequest
          (str "daysLeft cannot be negative and totalTarget must be positive"),
         false)
      else if tt < dl then
        (.badRequest (str "daysLeft cannot be greater than totalTarget"), false)
      else
        match llm with
        | some q =>
          (.ok [("quote", .s q), ("daysLeft", .i dl), ("totalTarget", .i tt),
                ("daysCompleted", .i (days_completed dl tt)),
                ("progressPercentage", .q (pyRound1 (progress_percentage dl tt)))],
           true)
        | none =>
          (.ok [("quote", .s (fallback_quotes.getD pick.val [])),
                ("daysLeft", .i dl), ("totalTarget", .i tt),
                ("progressPercentage", .q (pyRound1 (progress_percentage dl tt))),
                ("warning", .s warningMsg)],
           true)
    | _, _ =>
      (.badRequest (str "daysLeft and totalTarget must be valid numbers"), false)

/-- The claim's validation-failure condition for the raw query
parameters: a parameter is missing, a parameter does not parse as an
integer, `days_left < 0`, `total_target ≤ 0`, or
`days_left > total_target`. -/
def requires400 (a b : Option (List Char)) : Bool :=
  match a, b with
  | none, _ => true
  | _, none => true
  | some x, some y =>
    match pyInt x, pyInt y with
    | some dl, some tt => decide (dl < 0) || decide (tt ≤ 0) || decide (tt < dl)
    | _, _ => true

/-- True exactly on the 400 responses. -/
def Resp.isBadRequest : Resp → Bool
  | .badRequest _ => true
  | .ok _ => false

/-! ## The spec's reading of the post-processing step (for comparison) -/

/-- Strip exactly one leading/trailing pair of the character `c`,
when both ends carry it: the spec's words for the quote-stripping step
("strip one leading/trailing double-quote pair if present"). -/
def stripOnePair (c : Char) (l : List Char) : List Char :=
  if 2 ≤ l.length ∧ l.head? = some c ∧ l.getLast? = some c then
    (l.drop 1).dropLast
  else l

/-- The post-processing step as the spec words it: one double-quote pair,
then one single-quote pair, then trim whitespace. -/
def specPostProcess (l : List Char) : List Char :=
  pyStrip (stripOnePair '\'' (stripOnePair '"' l))

/-! ## Helper lemmas -/

theorem head?_dropWhile_not (p : Char → Bool) :
    ∀ (l : List Char) (c : Char), (l.dropWhile p).head? = some c → p c = false := by
  intro l
  induction l with
  | nil => intro c h; simp [List.dropWhile] at h
  | cons a as ih =>
    intro c h
    by_cases hp : p a
    · rw [List.dropWhile_cons_of_pos hp] at h; exact ih c h
    · rw [List.dropWhile_cons_of_neg hp] at h
      simp only [List.head?_cons, Option.some.injEq] at h
      simpa [← h] using hp

theorem getLast?_dropWhile (p : Char → Bool) :
    ∀ l : List Char, l.dropWhile p ≠ [] → (l.dropWhile p).getLast? = l.getLast? := by
  intro l
  induction l with
  | nil => intro h; simp [List.dropWhile] at h
  | cons a as ih =>
    intro h
    by_cases hp : p a
    · rw [List.dropWhile_cons_of_pos hp] at h ⊢
      rcases has : as with _ | ⟨b, bs⟩
      · subst has; simp [List.dropWhile] at h
      · subst has
        rw [ih h, List.getLast?_cons_cons]
    · rw [List.dropWhile_cons_of_neg hp]

theorem pyStripChars_decomp (cs l : List Char) :
    ∃ pre suf,
      l = pre ++ pyStripChars cs l ++ suf ∧
      (∀ c ∈ pre, c ∈ cs) ∧ (∀ c ∈ suf, c ∈ cs) ∧
      (∀ c, (pyStripChars cs l).head? = some c → c ∉ cs) ∧
      (∀ c, (pyStripChars cs l).getLast? = some c → c ∉ cs) := by
  classical
  set p : Char → Bool := fun c => decide (c ∈ cs) with hp
  set L : List Char := l.dropWhile p with hL
  set R : List Char := L.reverse.dropWhile p with hR
  have hstrip : pyStripChars cs l = R.reverse := by
    simp [pyStripChars, hR, hL, hp]
  refine ⟨l.takeWhile p, (L.reverse.takeWhile p).reverse, ?_, ?_, ?_, ?_, ?_⟩
  · have h1 : l = l.takeWhile p ++ L := (List.takeWhile_append_dropWhile p l).symm
    have h2 : L.reverse = L.reverse.takeWhile p ++ R :=
      (List.takeWhile_append_dropWhile p L.reverse).symm
    have h3 : L = R.reverse ++ (L.reverse.takeWhile p).reverse := by
      have := congrArg List.reverse h2
      simpa using this
    rw [hstrip]
    conv_lhs => rw [h1, h3]
    rw [List.append_assoc]
  · intro c hc
    have := List.mem_takeWhile_imp hc
    simpa [hp] using this
  · intro c hc
    have hc' : c ∈ L.reverse.takeWhile p := List.mem_reverse.mp hc
    have := List.mem_takeWhile_imp hc'
    simpa [hp] using this
  · intro c hc
    rw [hstrip, List.head?_reverse] at hc
    have hRne : R ≠ [] := by
      intro hnil
      rw [hnil] at hc; simp at hc
    have := getLast?_dropWhile p L.reverse (by rw [← hR]; exact hRne)
    rw [← hR] at this
    rw [this, List.getLast?_reverse] at hc
    have := head?_dropWhile_not p l c (by rw [← hL]; exact hc)
    simpa [hp] using this
  · intro c hc
    rw [hstrip, List.getLast?_reverse] at hc
    have := head?_dropWhile_not p L.reverse c hc
    simpa [hp] using this

theorem pyInt_nil : pyInt [] = none := rfl

theorem fallback_getD_mem : ∀ i : Fin 5, fallback_quotes.getD i.val [] ∈ fallback_quotes := by
  decide

/-! ## Claim theorems -/

/-- C1 (counterexample): with content `""` and reasoning `"quote:"`, all
conditions of the claim hold (empty content, reasoning contains "quote",
a line contains the marker "quote:"), yet the extracted quote is not the
trimmed substring after the first colon of that line (which is empty):
extraction falls through to the last-sentence fallback and yields
`"quote:"`. -/
theorem C1_empty_marker_counterexample :
    pyStrip (str "") = [] ∧
    containsSub (str "quote") (pyLower (str "quote:")) = true ∧
    markerLine (splitOnChar '\n' (str "quote:")) = some (str "quote:") ∧
    pyStrip (afterFirstColon (str "quote:")) = [] ∧
    extractQuote ⟨str "", some (str "quote:")⟩ ≠
      pyStrip (afterFirstColon (str "quote:")) := by
  decide

/-- C1 (amended): when the primary `content` extraction is empty, the
message has a `reasoning` field containing "quote" (case-insensitive),
and some line contains a marker, the extracted quote is the substring
after the first colon of the first such line, trimmed of whitespace,
provided that trimmed substring is nonempty; the normalized result is
its post-processed, length-capped form. -/
theorem C1_marker_extraction (content reasoning line : List Char)
    (hc : pyStrip content = [])
    (hq : containsSub (str "quote") (pyLower reasoning) = true)
    (hline : markerLine (splitOnChar '\n' reasoning) = some line)
    (hne : pyStrip (afterFirstColon line) ≠ []) :
    extractQuote ⟨content, some reasoning⟩ = pyStrip (afterFirstColon line) ∧
    normalizeResponse ⟨content, some reasoning⟩ =
      some (truncate200 (postProcess (pyStrip (afterFirstColon line)))) := by
  have hfalse : (pyStrip (afterFirstColon line)).isEmpty = false := by
    simpa using hne
  have hme : markerExtract reasoning = pyStrip (afterFirstColon line) := by
    unfold markerExtract
    rw [hline]
  have h1 : extractQuote ⟨content, some reasoning⟩ = pyStrip (afterFirstColon line) := by
    simp [extractQuote, hc, hq, hme, hfalse]
  refine ⟨h1, ?_⟩
  simp [normalizeResponse, h1, hfalse]

/-- C1 (witness): the spec's own example, content `""` and reasoning
`"... the quote: Build boldly."`, extracts and normalizes to
`"Build boldly."`. -/
theorem C1_marker_extraction_witness :
    (pyStrip (str "") = [] ∧
     containsSub (str "quote") (pyLower (str "... the quote: Build boldly.")) = true ∧
     markerLine (splitOnChar '\n' (str "... the quote: Build boldly.")) =
       some (str "... the quote: Build boldly.") ∧
     pyStrip (afterFirstColon (str "... the quote: Build boldly.")) ≠ []) ∧
    extractQuote ⟨str "", some (str "... the quote: Build boldly.")⟩ =
      str "Build boldly." ∧
    normalizeResponse ⟨str "", some (str "... the quote: Build boldly.")⟩ =
      some (str "Build boldly.") := by
  refine ⟨⟨by decide, by decide, by decide, by decide⟩, ?_, ?_⟩
  · exact (C1_marker_extraction (str "") (str "... the quote: Build boldly.")
      (str "... the quote: Build boldly.") (by decide) (by decide) (by decide)
      (by decide)).1.trans (by decide)
  · exact (C1_marker_extraction (str "") (str "... the quote: Build boldly.")
      (str "... the quote: Build boldly.") (by decide) (by decide) (by decide)
      (by decide)).2.trans (by decide)

/-- C2 (counterexample): on the input `""X""` the code's post-processing
(Python `strip`, removing every edge quote character) yields `X`, while
the claim's "strip exactly one leading/trailing double-quote pair" would
yield `"X"`. -/
theorem C2_one_pair_counterexample :
    postProcess (str "\"\"X\"\"") ≠ specPostProcess (str "\"\"X\"\"") ∧
    postProcess (str "\"\"X\"\"") = str "X" ∧
    specPostProcess (str "\"\"X\"\"") = str "\"X\"" := by
  decide

/-- C2 (amended): the post-processing step strips ALL leading and
trailing double-quote characters (each end independently), then all
leading/trailing single-quote characters, then trims surrounding
whitespace; each pass is maximal (the remaining ends no longer carry the
stripped character), and no character away from the ends is removed:
the result is a contiguous segment of the input. -/
theorem C2_strip_all_edge_quotes (q : List Char) :
    ∃ d1 s1 w1 w2 s2 d2 : List Char,
      (∀ c ∈ d1, c = '"') ∧ (∀ c ∈ d2, c = '"') ∧
      (∀ c ∈ s1, c = '\'') ∧ (∀ c ∈ s2, c = '\'') ∧
      (∀ c ∈ w1, c ∈ WS) ∧ (∀ c ∈ w2, c ∈ WS) ∧
      q = d1 ++ (s1 ++ (w1 ++ postProcess q ++ w2) ++ s2) ++ d2 ∧
      (∀ c, (pyStripChars ['"'] q).head? = some c → c ≠ '"') ∧
      (∀ c, (pyStripChars ['"'] q).getLast? = some c → c ≠ '"') ∧
      (∀ c, (pyStripChars ['\''] (pyStripChars ['"'] q)).head? = some c → c ≠ '\'') ∧
      (∀ c, (pyStripChars ['\''] (pyStripChars ['"'] q)).getLast? = some c → c ≠ '\'') ∧
      (∀ c, (postProcess q).head? = some c → c ∉ WS) ∧
      (∀ c, (postProcess q).getLast? = some c → c ∉ WS) := by
  obtain ⟨d1, d2, hq1, hd1, hd2, hh1, hl1⟩ := pyStripChars_decomp ['"'] q
  obtain ⟨s1, s2, hq2, hs1, hs2, hh2, hl2⟩ :=
    pyStripChars_decomp ['\''] (pyStripChars ['"'] q)
  obtain ⟨w1, w2, hq3, hw1, hw2, hh3, hl3⟩ :=
    pyStripChars_decomp WS (pyStripChars ['\''] (pyStripChars ['"'] q))
  have hpp : postProcess q =
      pyStripChars WS (pyStripChars ['\''] (pyStripChars ['"'] q)) := rfl
  refine ⟨d1, s1, w1, w2, s2, d2, ?_, ?_, ?_, ?_, ?_, ?_, ?_, ?_, ?_, ?_, ?_, ?_, ?_⟩
  · intro c hc; simpa using hd1 c hc
  · intro c hc; simpa using hd2 c hc
  · intro c hc; simpa using hs1 c hc
  · intro c hc; simpa using hs2 c hc
  · exact hw1
  · exact hw2
  · rw [hpp]
    conv_lhs => rw [hq1, hq2, hq3]
  · intro c hc; simpa using hh1 c hc
  · intro c hc; simpa using hl1 c hc
  · intro c hc; simpa using hh2 c hc
  · intro c hc; simpa using hl2 c hc
  · intro c hc; rw [hpp] at hc; exact hh3 c hc
  · intro c hc; rw [hpp] at hc; exact hl3 c hc

/-- C3 (counterexample): for `days_left = 0`, `total_target = 100` the
progress is 100%, so the computed phase is not "beginning". -/
theorem C3_beginning_counterexample : phase 0 100 ≠ "beginning" := by
  norm_num [phase, phaseTone, progress_percentage, days_completed]
  decide

/-- C3 (amended): for `days_left = 0`, `total_target = 100` the Prompt
Builder's computed phase is "final sprint" (progress is 100%). -/
theorem C3_phase_final_sprint : phase 0 100 = "final sprint" := by
  norm_num [phase, phaseTone, progress_percentage, days_completed]

/-- C5: a post-processed quote longer than 200 characters is truncated
to its first 200 characters followed by the literal `"..."` (203
characters in total); a quote of at most 200 characters is returned
unchanged by this step. -/
theorem C5_truncation (q : List Char) :
    (200 < q.length →
      truncate200 q = q.take 200 ++ str "..." ∧ (truncate200 q).length = 203) ∧
    (q.length ≤ 200 → truncate200 q = q) := by
  have h3 : (str "...").length = 3 := rfl
  constructor
  · intro h
    have ht : truncate200 q = q.take 200 ++ str "..." := by
      simp [truncate200, h]
    refine ⟨ht, ?_⟩
    rw [ht, List.length_append, List.length_take, h3]
    omega
  · intro h
    simp [truncate200, Nat.not_lt.mpr h]

set_option maxRecDepth 4000 in
/-- C5 (witness): a 201-character string is truncated to 203 characters,
and a 200-character string passes unchanged. -/
theorem C5_truncation_witness :
    (200 < (List.replicate 201 'a').length ∧
     truncate200 (List.replicate 201 'a') =
       (List.replicate 201 'a').take 200 ++ str "..." ∧
     (truncate200 (List.replicate 201 'a')).length = 203) ∧
    ((List.replicate 200 'b').length ≤ 200 ∧
     truncate200 (List.replicate 200 'b') = List.replicate 200 'b') :=
  ⟨⟨by simp, (C5_truncation (List.replicate 201 'a')).1 (by simp)⟩,
   ⟨by simp, (C5_truncation (List.replicate 200 'b')).2 (by simp)⟩⟩

/-- C10: when the first marker line of the reasoning yields an empty
string after the colon and trimming, extraction does not stop there but
falls through to the last-sentence fallback: split on `". "`, take the
last element stripped, and remove a single trailing `'.'`. -/
theorem C10_empty_fallthrough (content reasoning line : List Char)
    (hc : pyStrip content = [])
    (hq : containsSub (str "quote") (pyLower reasoning) = true)
    (hline : markerLine (splitOnChar '\n' reasoning) = some line)
    (hemp : pyStrip (afterFirstColon line) = []) :
    extractQuote ⟨content, some reasoning⟩ =
      (let s := pyStrip ((splitDotSpace reasoning).getLastD []);
       if s.getLast? = some '.' then s.dropLast else s) := by
  have hme : markerExtract reasoning = [] := by
    unfold markerExtract
    rw [hline]
    exact hemp
  have h1 : extractQuote ⟨content, some reasoning⟩ = lastSentence reasoning := by
    simp [extractQuote, hc, hq, hme]
  exact h1

/-- C10 (witness): reasoning `"quote: \nEnd here. Build boldly."` has a
first marker line whose post-colon text trims to empty; extraction falls
through and returns the last sentence `"Build boldly"`. -/
theorem C10_empty_fallthrough_witness :
    (pyStrip (str "") = [] ∧
     containsSub (str "quote") (pyLower (str "quote: \nEnd here. Build boldly.")) = true ∧
     markerLine (splitOnChar '\n' (str "quote: \nEnd here. Build boldly.")) =
       some (str "quote: ") ∧
     pyStrip (afterFirstColon (str "quote: ")) = []) ∧
    extractQuote ⟨str "", some (str "quote: \nEnd here. Build boldly.")⟩ =
      str "Build boldly" := by
  refine ⟨⟨by decide, by decide, by decide, by decide⟩, ?_⟩
  exact (C10_empty_fallthrough (str "") (str "quote: \nEnd here. Build boldly.")
    (str "quote: ") (by decide) (by decide) (by decide) (by decide)).trans (by decide)

/-- C4: for every valid input the phase is a deterministic, total
function of the progress percentage with the four strict-comparison
buckets `< 25`, `< 50`, `< 75`, `≥ 75`: every input falls in exactly one
bucket (the four characterizing equivalences below are mutually
exclusive and exhaustive by trichotomy of `<` on ℚ). -/
theorem C4_phase_buckets (dl tt : ℤ) (_h0 : 0 ≤ dl) (_h1 : 0 < tt) (_h2 : dl ≤ tt) :
    (phase dl tt = "beginning" ∨ phase dl tt = "early progress" ∨
     phase dl tt = "middle journey" ∨ phase dl tt = "final sprint") ∧
    (phase dl tt = "beginning" ↔ progress_percentage dl tt < 25) ∧
    (phase dl tt = "early progress" ↔
      25 ≤ progress_percentage dl tt ∧ progress_percentage dl tt < 50) ∧
    (phase dl tt = "middle journey" ↔
      50 ≤ progress_percentage dl tt ∧ progress_percentage dl tt < 75) ∧
    (phase dl tt = "final sprint" ↔ 75 ≤ progress_percentage dl tt) := by
  unfold phase phaseTone
  set p := progress_percentage dl tt with hp
  by_cases hA : p < 25
  · rw [if_pos hA]
    refine ⟨Or.inl rfl, ⟨fun _ => hA, fun _ => rfl⟩, ?_, ?_, ?_⟩
    · exact ⟨fun h => absurd h (by decide),
        fun h => absurd hA (not_lt.mpr (le_trans (by norm_num) h.1))⟩
    · exact ⟨fun h => absurd h (by decide),
        fun h => absurd hA (not_lt.mpr (le_trans (by norm_num) h.1))⟩
    · exact ⟨fun h => absurd h (by decide),
        fun h => absurd hA (not_lt.mpr (le_trans (by norm_num) h))⟩
  · by_cases hB : p < 50
    · rw [if_neg hA, if_pos hB]
      refine ⟨Or.inr (Or.inl rfl), ?_, ⟨fun _ => ⟨not_lt.mp hA, hB⟩, fun _ => rfl⟩, ?_, ?_⟩
      · exact ⟨fun h => absurd h (by decide), fun h => absurd h hA⟩
      · exact ⟨fun h => absurd h (by decide),
          fun h => absurd hB (not_lt.mpr h.1)⟩
      · exact ⟨fun h => absurd h (by decide),
          fun h => absurd hB (not_lt.mpr (le_trans (by norm_num) h))⟩
    · by_cases hC : p < 75
      · rw [if_neg hA, if_neg hB, if_pos hC]
        refine ⟨Or.inr (Or.inr (Or.inl rfl)), ?_, ?_,
          ⟨fun _ => ⟨not_lt.mp hB, hC⟩, fun _ => rfl⟩, ?_⟩
        · exact ⟨fun h => absurd h (by decide), fun h => absurd h hA⟩
        · exact ⟨fun h => absurd h (by decide), fun h => absurd h.2 hB⟩
        · exact ⟨fun h => absurd h (by decide),
            fun h => absurd hC (not_lt.mpr h)⟩
      · rw [if_neg hA, if_neg hB, if_neg hC]
        refine ⟨Or.inr (Or.inr (Or.inr rfl)), ?_, ?_, ?_,
          ⟨fun _ => not_lt.mp hC, fun _ => rfl⟩⟩
        · exact ⟨fun h => absurd h (by decide), fun h => absurd h hA⟩
        · exact ⟨fun h => absurd h (by decide), fun h => absurd h.2 hB⟩
        · exact ⟨fun h => absurd h (by decide), fun h => absurd h.2 hC⟩

/-- C4 (witness): the characterization instantiated at
`days_left = 3`, `total_target = 10` (progress 70%). -/
theorem C4_phase_buckets_witness :
    ((0:ℤ) ≤ 3 ∧ (0:ℤ) < 10 ∧ (3:ℤ) ≤ 10) ∧
    ((phase 3 10 = "beginning" ∨ phase 3 10 = "early progress" ∨
      phase 3 10 = "middle journey" ∨ phase 3 10 = "final sprint") ∧
     (phase 3 10 = "beginning" ↔ progress_percentage 3 10 < 25) ∧
     (phase 3 10 = "early progress" ↔
       25 ≤ progress_percentage 3 10 ∧ progress_percentage 3 10 < 50) ∧
     (phase 3 10 = "middle journey" ↔
       50 ≤ progress_percentage 3 10 ∧ progress_percentage 3 10 < 75) ∧
     (phase 3 10 = "final sprint" ↔ 75 ≤ progress_percentage 3 10)) :=
  ⟨⟨by decide, by decide, by decide⟩,
   C4_phase_buckets 3 10 (by decide) (by decide) (by decide)⟩

/-- C6: the handler returns a 400 validation error if and only if a
query parameter is missing or empty, a parameter does not parse as an
integer, `days_left < 0`, `total_target ≤ 0`, or
`days_left > total_target`; and the upstream client is invoked if and
only if none of these hold (so no upstream call is made on any
validation failure). -/
theorem C6_validation_iff (a b llm : Option (List Char)) (pick : Fin 5) :
    ((get_motivational_quote a b llm pick).1.isBadRequest = true ↔
      requires400 a b = true) ∧
    ((get_motivational_quote a b llm pick).2 = true ↔ requires400 a b = false) := by
  rcases a with _ | x
  · simp [get_motivational_quote, requires400, Resp.isBadRequest]
  rcases b with _ | y
  · simp [get_motivational_quote, requires400, Resp.isBadRequest]
  by_cases hx : x = []
  · subst hx
    simp [get_motivational_quote, requires400, Resp.isBadRequest, pyInt_nil]
  by_cases hy : y = []
  · subst hy
    simp [get_motivational_quote, requires400, Resp.isBadRequest, pyInt_nil, hx]
  have hex : x.isEmpty = false := by simpa using hx
  have hey : y.isEmpty = false := by simpa using hy
  rcases llm with _ | qt <;>
    cases hpx : pyInt x <;> cases hpy : pyInt y <;>
      simp [get_motivational_quote, requires400, Resp.isBadRequest,
        hex, hey, hpx, hpy] <;>
    split_ifs <;> simp [Resp.isBadRequest] <;> omega

/-- C7: for every request that passes validation, when the Completion
Client fails (modelled by `llm = none`, covering upstream non-2xx, empty
response and transport errors alike) the handler still returns a 200
response whose quote is one of the five hard-coded fallback quotes,
together with a warning field and the computed progress field; the
failure is never surfaced as an error response. -/
theorem C7_fallback_on_failure (a b : Option (List Char)) (pick : Fin 5)
    (h : requires400 a b = false) :
    ∃ body, get_motivational_quote a b none pick = (.ok body, true) ∧
      (∃ qt, ("quote", JVal.s qt) ∈ body ∧ qt ∈ fallback_quotes) ∧
      (∃ w, ("warning", JVal.s w) ∈ body) ∧
      (∃ p, ("progressPercentage", JVal.q p) ∈ body) := by
  rcases a with _ | x
  · simp [requires400] at h
  rcases b with _ | y
  · simp [requires400] at h
  cases hpx : pyInt x with
  | none => simp [requires400, hpx] at h
  | some dl =>
  cases hpy : pyInt y with
  | none => simp [requires400, hpx, hpy] at h
  | some tt =>
  simp only [requires400, hpx, hpy, Bool.or_eq_false_iff, decide_eq_false_iff_not,
    not_lt, not_le] at h
  obtain ⟨⟨hdl, htt⟩, hle⟩ := h
  have hx : x ≠ [] := fun hnil => by rw [hnil, pyInt_nil] at hpx; cases hpx
  have hy : y ≠ [] := fun hnil => by rw [hnil, pyInt_nil] at hpy; cases hpy
  have hex : x.isEmpty = false := by simpa using hx
  have hey : y.isEmpty = false := by simpa using hy
  have hc1 : ¬(dl < 0 ∨ tt ≤ 0) := by omega
  have hc2 : ¬(tt < dl) := by omega
  refine ⟨[("quote", JVal.s (fallback_quotes.getD pick.val [])),
           ("daysLeft", JVal.i dl), ("totalTarget", JVal.i tt),
           ("progressPercentage", JVal.q (pyRound1 (progress_percentage dl tt))),
           ("warning", JVal.s warningMsg)], ?_,
    ⟨fallback_quotes.getD pick.val [], by simp, fallback_getD_mem pick⟩,
    ⟨warningMsg, by simp⟩,
    ⟨pyRound1 (progress_percentage dl tt), by simp⟩⟩
  simp [get_motivational_quote, hex, hey, hpx, hpy, hc1, hc2]

/-- C7 (witness): the fallback behaviour at `daysLeft=23`,
`totalTarget=100` with a failing upstream and random index 0. -/
theorem C7_fallback_on_failure_witness :
    requires400 (some (str "23")) (some (str "100")) = false ∧
    (∃ body,
      get_motivational_quote (some (str "23")) (some (str "100")) none (0 : Fin 5) =
        (.ok body, true) ∧
      (∃ qt, ("quote", JVal.s qt) ∈ body ∧ qt ∈ fallback_quotes) ∧
      (∃ w, ("warning", JVal.s w) ∈ body) ∧
      (∃ p, ("progressPercentage", JVal.q p) ∈ body)) :=
  ⟨by decide, C7_fallback_on_failure (some (str "23")) (some (str "100"))
    (0 : Fin 5) (by decide)⟩

/-- C8: for every validated request, the success body carries exactly
the fields quote, daysLeft, totalTarget, daysCompleted,
progressPercentage, with `daysCompleted = totalTarget - daysLeft` and
`progressPercentage = round1(100 * daysCompleted / totalTarget)`, while
the fallback body carries exactly quote, daysLeft, totalTarget,
progressPercentage, warning — omitting daysCompleted. -/
theorem C8_response_shape (a b : Option (List Char)) (qt : List Char) (pick : Fin 5)
    (h : requires400 a b = false) :
    ∃ dl tt : ℤ, ∃ sbody fbody : List (String × JVal),
      pyInt (a.getD []) = some dl ∧ pyInt (b.getD []) = some tt ∧
      get_motivational_quote a b (some qt) pick = (.ok sbody, true) ∧
      sbody.map Prod.fst =
        ["quote", "daysLeft", "totalTarget", "daysCompleted", "progressPercentage"] ∧
      ("quote", JVal.s qt) ∈ sbody ∧
      ("daysLeft", JVal.i dl) ∈ sbody ∧
      ("totalTarget", JVal.i tt) ∈ sbody ∧
      ("daysCompleted", JVal.i (tt - dl)) ∈ sbody ∧
      ("progressPercentage",
        JVal.q (pyRound1 (100 * ((tt - dl : ℤ) : ℚ) / (tt : ℚ)))) ∈ sbody ∧
      get_motivational_quote a b none pick = (.ok fbody, true) ∧
      fbody.map Prod.fst =
        ["quote", "daysLeft", "totalTarget", "progressPercentage", "warning"] ∧
      ("progressPercentage",
        JVal.q (pyRound1 (100 * ((tt - dl : ℤ) : ℚ) / (tt : ℚ)))) ∈ fbody ∧
      "daysCompleted" ∉ fbody.map Prod.fst := by
  rcases a with _ | x
  · simp [requires400] at h
  rcases b with _ | y
  · simp [requires400] at h
  cases hpx : pyInt x with
  | none => simp [requires400, hpx] at h
  | some dl =>
  cases hpy : pyInt y with
  | none => simp [requires400, hpx, hpy] at h
  | some tt =>
  simp only [requires400, hpx, hpy, Bool.or_eq_false_iff, decide_eq_false_iff_not,
    not_lt, not_le] at h
  obtain ⟨⟨hdl, htt⟩, hle⟩ := h
  have hx : x ≠ [] := fun hnil => by rw [hnil, pyInt_nil] at hpx; cases hpx
  have hy : y ≠ [] := fun hnil => by rw [hnil, pyInt_nil] at hpy; cases hpy
  have hex : x.isEmpty = false := by simpa using hx
  have hey : y.isEmpty = false := by simpa using hy
  have hc1 : ¬(dl < 0 ∨ tt ≤ 0) := by omega
  have hc2 : ¬(tt < dl) := by omega
  have hprog : progress_percentage dl tt = 100 * ((tt - dl : ℤ) : ℚ) / (tt : ℚ) := by
    unfold progress_percentage days_completed
    push_cast
    ring
  refine ⟨dl, tt,
    [("quote", JVal.s qt), ("daysLeft", JVal.i dl), ("totalTarget", JVal.i tt),
     ("daysCompleted", JVal.i (tt - dl)),
     ("progressPercentage",
       JVal.q (pyRound1 (100 * ((tt - dl : ℤ) : ℚ) / (tt : ℚ))))],
    [("quote", JVal.s (fallback_quotes.getD pick.val [])),
     ("daysLeft", JVal.i dl), ("totalTarget", JVal.i tt),
     ("progressPercentage",
       JVal.q (pyRound1 (100 * ((tt - dl : ℤ) : ℚ) / (tt : ℚ)))),
     ("warning", JVal.s warningMsg)],
    by simp [hpx], by simp [hpy], ?_, by simp, by simp, by simp, by simp, by simp,
    by simp, ?_, by simp, by simp, by simp⟩
  · simp [get_motivational_quote, hex, hey, hpx, hpy, hc1, hc2, hprog,
      days_completed]
  · simp [get_motivational_quote, hex, hey, hpx, hpy, hc1, hc2, hprog]

/-- C8 (witness): the two response shapes at `daysLeft=23`,
`totalTarget=100`, quote "Go", random index 0. -/
theorem C8_response_shape_witness :
    requires400 (some (str "23")) (some (str "100")) = false ∧
    (∃ dl tt : ℤ, ∃ sbody fbody : List (String × JVal),
      pyInt ((some (str "23")).getD []) = some dl ∧
      pyInt ((some (str "100")).getD []) = some tt ∧
      get_motivational_quote (some (str "23")) (some (str "100"))
          (some (str "Go")) (0 : Fin 5) = (.ok sbody, true) ∧
      sbody.map Prod.fst =
        ["quote", "daysLeft", "totalTarget", "daysCompleted", "progressPercentage"] ∧
      ("quote", JVal.s (str "Go")) ∈ sbody ∧
      ("daysLeft", JVal.i dl) ∈ sbody ∧
      ("totalTarget", JVal.i tt) ∈ sbody ∧
      ("daysCompleted", JVal.i (tt - dl)) ∈ sbody ∧
      ("progressPercentage",
        JVal.q (pyRound1 (100 * ((tt - dl : ℤ) : ℚ) / (tt : ℚ)))) ∈ sbody ∧
      get_motivational_quote (some (str "23")) (some (str "100")) none (0 : Fin 5) =
        (.ok fbody, true) ∧
      fbody.map Prod.fst =
        ["quote", "daysLeft", "totalTarget", "progressPercentage", "warning"] ∧
      ("progressPercentage",
        JVal.q (pyRound1 (100 * ((tt - dl : ℤ) : ℚ) / (tt : ℚ)))) ∈ fbody ∧
      "daysCompleted" ∉ fbody.map Prod.fst) :=
  ⟨by decide, C8_response_shape (some (str "23")) (some (str "100"))
    (str "Go") (0 : Fin 5) (by decide)⟩

/-- C9: whenever the handler proceeds past validation (the upstream
client is invoked, and the progress percentage is computed on the
prompt-building, fallback and success paths), the parsed `total_target`
— the divisor of every progress computation — is strictly positive, so
no division by zero can occur. -/
theorem C9_divisor_positive (a b llm : Option (List Char)) (pick : Fin 5)
    (h : (get_motivational_quote a b llm pick).2 = true) :
    ∃ dl tt : ℤ, pyInt (a.getD []) = some dl ∧ pyInt (b.getD []) = some tt ∧
      0 < tt ∧ 0 ≤ dl ∧ dl ≤ tt := by
  rcases a with _ | x
  · simp [get_motivational_quote] at h
  rcases b with _ | y
  · simp [get_motivational_quote] at h
  by_cases hx : x = []
  · subst hx
    simp [get_motivational_quote] at h
  by_cases hy : y = []
  · subst hy
    simp [get_motivational_quote] at h
  have hex : x.isEmpty = false := by simpa using hx
  have hey : y.isEmpty = false := by simpa using hy
  cases hpx : pyInt x with
  | none =>
    cases hpy : pyInt y <;>
      simp [get_motivational_quote, hex, hey, hpx, hpy] at h
  | some dl =>
  cases hpy : pyInt y with
  | none => simp [get_motivational_quote, hex, hey, hpx, hpy] at h
  | some tt =>
  by_cases hc1 : dl < 0 ∨ tt ≤ 0
  · rcases llm with _ | q <;>
      simp [get_motivational_quote, hex, hey, hpx, hpy, hc1] at h
  by_cases hc2 : tt < dl
  · rcases llm with _ | q <;>
      simp [get_motivational_quote, hex, hey, hpx, hpy, hc1, hc2] at h
  exact ⟨dl, tt, by simp [hpx], by simp [hpy], by omega, by omega, by omega⟩

/-- C9 (witness): at `daysLeft=23`, `totalTarget=100` with a successful
upstream call the divisor is the positive 100. -/
theorem C9_divisor_positive_witness :
    (get_motivational_quote (some (str "23")) (some (str "100"))
        (some (str "Go")) (0 : Fin 5)).2 = true ∧
    (∃ dl tt : ℤ,
      pyInt ((some (str "23")).getD []) = some dl ∧
      pyInt ((some (str "100")).getD []) = some tt ∧
      0 < tt ∧ 0 ≤ dl ∧ dl ≤ tt) :=
  ⟨by decide, C9_divisor_positive (some (str "23")) (some (str "100"))
    (some (str "Go")) (0 : Fin 5) (by decide)⟩

end TCT
